import Mathlib

/-!
Shallow embedding of `bitbucket/client.go` from the
`terraform-provider-bitbucket-1` repository: the `Error` type, the
request-dispatch routine `Client.Do`, and the convenience helpers
(`Get`, `Post`, `PostNonJson`, `Put`, `PutOnly`, `Delete`).

The embedding models the parts of the Go standard library the source
leans on where their behaviour is observable at this layer:
`encoding/json.Unmarshal` (a JSON validity parser plus a field decoder
for the concrete `Error` struct), `net/http` header maps
(`Header.Set` / `Header.Add` / `Request.SetBasicAuth`),
`encoding/base64` standard encoding, and `golang.org/x/oauth2`'s
`Token.SetAuthHeader`.  The HTTP transport and the token source are
external collaborators and are modelled as oracles supplied to the
client, per the spec's collaborator interfaces.
-/

namespace BitbucketClient

/-! ## JSON values and the validity parser (model of `encoding/json` scanning) -/

/-- A parsed JSON value.  Number literals are kept as their source text,
mirroring `encoding/json`, which converts the raw literal only when it is
stored into a concrete Go field. -/
inductive Json where
  | null
  | boolean (b : Bool)
  | num (lit : String)
  | str (s : String)
  | arr (elems : List Json)
  | obj (fields : List (String × Json))

/-- JSON insignificant whitespace, as accepted by the `encoding/json` scanner. -/
def isJsonWs (c : Char) : Bool :=
  c == ' ' || c == '\t' || c == '\n' || c == '\r'

/-- Drop leading JSON whitespace. -/
def skipWs : List Char → List Char
  | [] => []
  | c :: cs => if isJsonWs c then skipWs cs else c :: cs

/-- Value of a hexadecimal digit, if the character is one. -/
def hexVal (c : Char) : Option Nat :=
  let n := c.toNat
  if 48 ≤ n && n ≤ 57 then some (n - 48)
  else if 65 ≤ n && n ≤ 70 then some (n - 55)
  else if 97 ≤ n && n ≤ 102 then some (n - 87)
  else none

/-- ASCII decimal digit test. -/
def isDigitChar (c : Char) : Bool :=
  48 ≤ c.toNat && c.toNat ≤ 57

/-- Parse the remainder of a JSON string literal (the opening quote has
already been consumed), decoding escapes the way `encoding/json` unquotes
them: the simple escapes, `\uXXXX` with surrogate-pair combination, and
a replacement character for a lone surrogate.  Fails on a raw control
character, an unknown escape, or an unterminated literal, which
`encoding/json` reports as a syntax error.  Fuel-indexed; the fuel is
always at least the input length so it never runs out in practice. -/
def parseStringAux : Nat → List Char → List Char → Option (List Char × List Char)
  | 0, _, _ => none
  | _ + 1, _, [] => none
  | fuel + 1, acc, c :: cs =>
    if c == '"' then some (acc.reverse, cs)
    else if c == '\\' then
      match cs with
      | [] => none
      | e :: cs2 =>
        if e == '"' then parseStringAux fuel ('"' :: acc) cs2
        else if e == '\\' then parseStringAux fuel ('\\' :: acc) cs2
        else if e == '/' then parseStringAux fuel ('/' :: acc) cs2
        else if e == 'b' then parseStringAux fuel (Char.ofNat 8 :: acc) cs2
        else if e == 'f' then parseStringAux fuel (Char.ofNat 12 :: acc) cs2
        else if e == 'n' then parseStringAux fuel ('\n' :: acc) cs2
        else if e == 'r' then parseStringAux fuel ('\r' :: acc) cs2
        else if e == 't' then parseStringAux fuel ('\t' :: acc) cs2
        else if e == 'u' then
          match cs2 with
          | h1 :: h2 :: h3 :: h4 :: cs3 =>
            match hexVal h1, hexVal h2, hexVal h3, hexVal h4 with
            | some a, some b, some c1, some d =>
              let n := a * 4096 + b * 256 + c1 * 16 + d
              if 0xD800 ≤ n && n ≤ 0xDFFF then
                match cs3 with
                | u1 :: u2 :: g1 :: g2 :: g3 :: g4 :: cs4 =>
                  match hexVal g1, hexVal g2, hexVal g3, hexVal g4 with
                  | some a2, some b2, some c2, some d2 =>
                    let m := a2 * 4096 + b2 * 256 + c2 * 16 + d2
                    if u1 == '\\' && u2 == 'u' && (0xD800 ≤ n && n ≤ 0xDBFF)
                        && (0xDC00 ≤ m && m ≤ 0xDFFF) then
                      parseStringAux fuel
                        (Char.ofNat (0x10000 + (n - 0xD800) * 0x400 + (m - 0xDC00)) :: acc) cs4
                    else
                      parseStringAux fuel (Char.ofNat 0xFFFD :: acc) cs3
                  | _, _, _, _ =>
                    parseStringAux fuel (Char.ofNat 0xFFFD :: acc) cs3
                | _ =>
                  parseStringAux fuel (Char.ofNat 0xFFFD :: acc) cs3
              else
                parseStringAux fuel (Char.ofNat n :: acc) cs3
            | _, _, _, _ => none
          | _ => none
        else none
    else if c.toNat < 0x20 then none
    else parseStringAux fuel (c :: acc) cs

/-- Parse a JSON number literal starting at the given position, returning
its raw text; grammar `-? (0 | [1-9][0-9]*) (. [0-9]+)? ([eE][+-]?[0-9]+)?`
as enforced by the `encoding/json` scanner. -/
def parseNumberLit (input : List Char) : Option (List Char × List Char) :=
  let (neg, r1) : List Char × List Char :=
    match input with
    | c :: cs => if c == '-' then ([c], cs) else ([], input)
    | [] => ([], input)
  match r1 with
  | [] => none
  | c :: cs =>
    if c == '0' then
      let intPart := neg ++ [c]
      let r2 := cs
      parseFracExp intPart r2
    else if isDigitChar c then
      let ds := cs.takeWhile isDigitChar
      let r2 := cs.dropWhile isDigitChar
      parseFracExp (neg ++ [c] ++ ds) r2
    else none
where
  /-- Parse the optional fraction and exponent parts. -/
  parseFracExp (acc : List Char) (r : List Char) : Option (List Char × List Char) :=
    let (acc2, r2) : List Char × List Char :=
      match r with
      | c :: cs =>
        if c == '.' then
          match cs with
          | d :: _ =>
            if isDigitChar d then
              (acc ++ [c] ++ cs.takeWhile isDigitChar, cs.dropWhile isDigitChar)
            else (acc, r)
          | [] => (acc, r)
        else (acc, r)
      | [] => (acc, r)
    if acc2.length == acc.length && (match r with | c :: _ => c == '.' | [] => false) then
      none
    else
      match r2 with
      | c :: cs =>
        if c == 'e' || c == 'E' then
          let (sgn, cs2) : List Char × List Char :=
            match cs with
            | s :: rest => if s == '+' || s == '-' then ([s], rest) else ([], cs)
            | [] => ([], cs)
          match cs2 with
          | d :: _ =>
            if isDigitChar d then
              some (acc2 ++ [c] ++ sgn ++ cs2.takeWhile isDigitChar, cs2.dropWhile isDigitChar)
            else none
          | [] => none
        else some (acc2, r2)
      | [] => some (acc2, r2)

mutual

/-- Parse one JSON value, fuel-indexed.  Mirrors the grammar accepted by
`encoding/json`'s validity scan. -/
def parseValue : Nat → List Char → Option (Json × List Char)
  | 0, _ => none
  | fuel + 1, input =>
    match skipWs input with
    | [] => none
    | c :: cs =>
      if c == 'n' then
        match cs with
        | 'u' :: 'l' :: 'l' :: rest => some (.null, rest)
        | _ => none
      else if c == 't' then
        match cs with
        | 'r' :: 'u' :: 'e' :: rest => some (.boolean true, rest)
        | _ => none
      else if c == 'f' then
        match cs with
        | 'a' :: 'l' :: 's' :: 'e' :: rest => some (.boolean false, rest)
        | _ => none
      else if c == '"' then
        match parseStringAux (cs.length + 1) [] cs with
        | some (s, rest) => some (.str (String.mk s), rest)
        | none => none
      else if c == '[' then
        match skipWs cs with
        | ']' :: rest => some (.arr [], rest)
        | other => match parseElems fuel other with
          | some (vs, rest) => some (.arr vs, rest)
          | none => none
      else if c == '{' then
        match skipWs cs with
        | '}' :: rest => some (.obj [], rest)
        | other => match parseMembers fuel other with
          | some (fs, rest) => some (.obj fs, rest)
          | none => none
      else
        match parseNumberLit (c :: cs) with
        | some (lit, rest) => some (.num (String.mk lit), rest)
        | none => none

/-- Parse one or more comma-separated array elements followed by `]`. -/
def parseElems : Nat → List Char → Option (List Json × List Char)
  | 0, _ => none
  | fuel + 1, input =>
    match parseValue fuel input with
    | none => none
    | some (v, rest) =>
      match skipWs rest with
      | ',' :: rest2 =>
        match parseElems fuel rest2 with
        | some (vs, rest3) => some (v :: vs, rest3)
        | none => none
      | ']' :: rest2 => some ([v], rest2)
      | _ => none

/-- Parse one or more comma-separated object members followed by the
closing brace. -/
def parseMembers : Nat → List Char → Option (List (String × Json) × List Char)
  | 0, _ => none
  | fuel + 1, input =>
    match skipWs input with
    | '"' :: cs =>
      match parseStringAux (cs.length + 1) [] cs with
      | none => none
      | some (k, rest) =>
        match skipWs rest with
        | ':' :: rest2 =>
          match parseValue fuel rest2 with
          | none => none
          | some (v, rest3) =>
            match skipWs rest3 with
            | ',' :: rest4 =>
              match parseMembers fuel rest4 with
              | some (fs, rest5) => some ((String.mk k, v) :: fs, rest5)
              | none => none
            | '}' :: rest4 => some ([(String.mk k, v)], rest4)
            | _ => none
        | _ => none
    | _ => none

end

/-- Parse a full JSON document: one value with only whitespace around it,
exactly the validity check `encoding/json.Unmarshal` performs before
decoding.  Returns `none` on any syntax error (including trailing data). -/
def parseJson (s : String) : Option Json :=
  let cs := s.toList
  match parseValue (cs.length + 1) cs with
  | some (j, rest) => if (skipWs rest).isEmpty then some j else none
  | none => none

/-! ## Small Go standard-library helpers -/

/-- Lower-case an ASCII letter; other characters unchanged. -/
def asciiLower (c : Char) : Char :=
  if 65 ≤ c.toNat && c.toNat ≤ 90 then Char.ofNat (c.toNat + 32) else c

/-- Case-insensitive string comparison: ASCII approximation of Go's
`strings.EqualFold` simple folding.  Every field name the decoder matches
is plain ASCII, where the two agree. -/
def eqFold (a b : String) : Bool :=
  a.toList.map asciiLower == b.toList.map asciiLower

/-- The standard base64 alphabet used by `encoding/base64.StdEncoding`. -/
def base64Alphabet : List Char :=
  "ABCDEFGHIJKLMNOPQRSTUVWXYZabcdefghijklmnopqrstuvwxyz0123456789+/".toList

/-- Character for one 6-bit group. -/
def b64c (n : Nat) : Char := base64Alphabet.getD n 'A'

/-- Standard base64 of a byte sequence, with `=` padding. -/
def base64Chunks : List Nat → List Char
  | [] => []
  | [a] => [b64c (a / 4), b64c (a % 4 * 16), '=', '=']
  | [a, b] => [b64c (a / 4), b64c (a % 4 * 16 + b / 16), b64c (b % 16 * 4), '=']
  | a :: b :: c :: rest =>
    b64c (a / 4) :: b64c (a % 4 * 16 + b / 16) :: b64c (b % 16 * 4 + c / 64)
      :: b64c (c % 64) :: base64Chunks rest

/-- UTF-8 encoding of one character as byte values, the structural
counterpart of `String.utf8EncodeChar` (spelled with division so that it
reduces in the kernel). -/
def utf8Bytes (c : Char) : List Nat :=
  let v := c.toNat
  if v ≤ 0x7f then [v]
  else if v ≤ 0x7ff then [v / 64 + 0xc0, v % 64 + 0x80]
  else if v ≤ 0xffff then [v / 4096 + 0xe0, v / 64 % 64 + 0x80, v % 64 + 0x80]
  else [v / 262144 + 0xf0, v / 4096 % 64 + 0x80, v / 64 % 64 + 0x80, v % 64 + 0x80]

/-- Model of `base64.StdEncoding.EncodeToString` over a string's UTF-8 bytes. -/
def base64Encode (s : String) : String :=
  String.mk (base64Chunks (s.toList.flatMap utf8Bytes))

/-- Model of `strconv.ParseInt(lit, 10, 64)` applied to a raw JSON number
literal, as `encoding/json` does when storing a number into an `int`
field: only an optional minus sign followed by decimal digits is
accepted (so any fraction or exponent is a type error), within `int64`
range. -/
def goParseInt64 (lit : String) : Option Int :=
  match lit.toList with
  | '-' :: ds =>
    if !ds.isEmpty && ds.all isDigitChar then
      let v : Nat := ds.foldl (fun a c => a * 10 + (c.toNat - 48)) 0
      if v ≤ 2 ^ 63 then some (-(v : Int)) else none
    else none
  | ds =>
    if !ds.isEmpty && ds.all isDigitChar then
      let v : Nat := ds.foldl (fun a c => a * 10 + (c.toNat - 48)) 0
      if v < 2 ^ 63 then some (v : Int) else none
    else none

/-! ## The `Error` type of `client.go` and `json.Unmarshal` into it -/

/-- The anonymous struct under the `error` JSON key:
`struct { Message string \x60json:"message,omitempty"\x60 }`. -/
structure APIErrorBody where
  message : String
  deriving DecidableEq

/-- The `Error` struct of `client.go`: JSON-tagged fields `error`
(nested message) and `type`, plus the untagged `StatusCode` and
`Endpoint` fields the dispatcher fills in. -/
structure Error where
  apiError : APIErrorBody
  type : String
  statusCode : Int
  endpoint : String
  deriving DecidableEq

/-- The `Error() string` method:
`fmt.Sprintf("API Error: %d %s %s", e.StatusCode, e.Endpoint, e.APIError.Message)`. -/
def Error.errorString (e : Error) : String :=
  "API Error: " ++ toString e.statusCode ++ " " ++ e.endpoint ++ " " ++ e.apiError.message

/-- Decode one member of the nested `error` object.  Go matches the
`message` tag case-insensitively; a `null` leaves the field untouched; a
value of the wrong type records an unmarshalling error but decoding
continues (as `encoding/json` does). -/
def decodeAPIErrorField (acc : Error × Bool) (kv : String × Json) : Error × Bool :=
  if eqFold kv.1 "message" then
    match kv.2 with
    | .str s => ({ acc.1 with apiError := { message := s } }, acc.2)
    | .null => acc
    | _ => (acc.1, true)
  else acc

/-- Decode one top-level member into the `Error` struct.  The JSON tags
`error` and `type` and the untagged exported field names `StatusCode`
and `Endpoint` are all matched case-insensitively, exactly the matching
`encoding/json` performs; unknown keys are skipped. -/
def decodeErrorField (acc : Error × Bool) (kv : String × Json) : Error × Bool :=
  if eqFold kv.1 "error" then
    match kv.2 with
    | .null => acc
    | .obj gs => gs.foldl decodeAPIErrorField acc
    | _ => (acc.1, true)
  else if eqFold kv.1 "type" then
    match kv.2 with
    | .str s => ({ acc.1 with type := s }, acc.2)
    | .null => acc
    | _ => (acc.1, true)
  else if eqFold kv.1 "StatusCode" then
    match kv.2 with
    | .num lit =>
      match goParseInt64 lit with
      | some n => ({ acc.1 with statusCode := n }, acc.2)
      | none => (acc.1, true)
    | .null => acc
    | _ => (acc.1, true)
  else if eqFold kv.1 "Endpoint" then
    match kv.2 with
    | .str s => ({ acc.1 with endpoint := s }, acc.2)
    | .null => acc
    | _ => (acc.1, true)
  else acc

/-- Decode a parsed JSON value into the `Error` struct, starting from
`init`.  Returns the (possibly partially) updated struct and whether any
unmarshalling error occurred: a top-level `null` is accepted and leaves
the struct untouched, any other non-object top level is a type error. -/
def decodeError (init : Error) (j : Json) : Error × Bool :=
  match j with
  | .null => (init, false)
  | .obj fs => fs.foldl decodeErrorField (init, false)
  | _ => (init, true)

/-- Model of `json.Unmarshal(body, &apiError)`: validity scan of the full
input, then field decoding.  The `Bool` is `true` exactly when Go's
`Unmarshal` returns a non-nil error (syntax error or any type error);
in the type-error case fields decoded before/after the offending member
remain set, as in Go. -/
def unmarshalError (init : Error) (body : String) : Error × Bool :=
  match parseJson body with
  | none => (init, true)
  | some j => decodeError init j

/-! ## `net/http` request and header model -/

/-- HTTP headers: a name-to-values map, modelled as an association list.
The source only ever touches the canonical keys `Authorization` and
`Content-Type`, so MIME canonicalization of keys is the identity here. -/
abbrev Header := List (String × List String)

/-- The values stored under a key (`http.Header` lookup). -/
def headerValues (h : Header) (key : String) : List String :=
  match h.find? (fun kv => kv.1 == key) with
  | some kv => kv.2
  | none => []

/-- `Header.Set`: replace all existing values of the key with the single
given value. -/
def headerSet (h : Header) (key value : String) : Header :=
  h.filter (fun kv => !(kv.1 == key)) ++ [(key, [value])]

/-- `Header.Add`: append the value to the values already stored under the
key. -/
def headerAdd (h : Header) (key value : String) : Header :=
  if h.any (fun kv => kv.1 == key) then
    h.map (fun kv => if kv.1 == key then (kv.1, kv.2 ++ [value]) else kv)
  else h ++ [(key, [value])]

/-- An outbound `http.Request` as far as this client observes it: method,
absolute URL, optional body bytes (`payload` is a `*bytes.Buffer`, so
`none` models the nil pointer), headers, and the `Close` flag. -/
structure Request where
  method : String
  url : String
  body : Option String
  header : Header
  close : Bool
  deriving DecidableEq

/-- RFC 7230 token characters, as in Go's `httpguts.IsTokenRune`
(ASCII letters, digits, and the fifteen listed symbols). -/
def isTokenChar (c : Char) : Bool :=
  let n := c.toNat
  (48 ≤ n && n ≤ 57) || (65 ≤ n && n ≤ 90) || (97 ≤ n && n ≤ 122) ||
  n == 33 || n == 35 || n == 36 || n == 37 || n == 38 || n == 39 ||
  n == 42 || n == 43 || n == 45 || n == 46 || n == 94 || n == 95 ||
  n == 96 || n == 124 || n == 126

/-- `net/http`'s `validMethod`: non-empty and token characters only. -/
def validMethod (method : String) : Bool :=
  method.length > 0 && method.toList.all isTokenChar

/-- ASCII control bytes, which make `url.Parse` fail. -/
def hasCtlByte (s : String) : Bool :=
  s.toList.any (fun c => c.toNat < 0x20 || c.toNat == 0x7f)

/-- Model of `http.NewRequest(method, url, body)`: fails on an invalid
method token or an unparseable URL.  The platform URL parser is an
external collaborator; its failure is modelled by its dominant case, a
control character in the URL. -/
def newRequest (method url : String) (body : Option String) : Except String Request :=
  if !validMethod method then .error ("net/http: invalid method " ++ method)
  else if hasCtlByte url then .error "net/url: invalid control character in URL"
  else .ok { method := method, url := url, body := body, header := [], close := false }

/-- `Request.SetBasicAuth`: `Header.Set` of `Authorization` to
`Basic base64(username + ":" + password)`. -/
def setBasicAuth (req : Request) (username password : String) : Request :=
  { req with header :=
      headerSet req.header "Authorization" ("Basic " ++ base64Encode (username ++ ":" ++ password)) }

/-! ## `golang.org/x/oauth2` token model -/

/-- An `oauth2.Token` as consumed here: the access token and its type.
The other fields (refresh token, expiry) are never read by this code. -/
structure Token where
  accessToken : String
  tokenType : String
  deriving DecidableEq

/-- `Token.Type()`: canonicalize the token type, defaulting to `Bearer`. -/
def Token.typeName (t : Token) : String :=
  if eqFold t.tokenType "bearer" then "Bearer"
  else if eqFold t.tokenType "mac" then "MAC"
  else if eqFold t.tokenType "basic" then "Basic"
  else if t.tokenType ≠ "" then t.tokenType
  else "Bearer"

/-- `Token.SetAuthHeader`: `Header.Set` of `Authorization` to
`Type() + " " + AccessToken` (a set, so it replaces all previous values). -/
def Token.setAuthHeader (t : Token) (req : Request) : Request :=
  { req with header :=
      headerSet req.header "Authorization" (t.typeName ++ " " ++ t.accessToken) }

/-! ## Transport and client -/

/-- Decidable equality for `Except` results, used to compare body reads. -/
instance exceptDecEq {ε α : Type} [DecidableEq ε] [DecidableEq α] :
    DecidableEq (Except ε α) := fun a b =>
  match a, b with
  | .ok x, .ok y =>
    if h : x = y then .isTrue (by rw [h]) else .isFalse (by intro hh; cases hh; exact h rfl)
  | .error x, .error y =>
    if h : x = y then .isTrue (by rw [h]) else .isFalse (by intro hh; cases hh; exact h rfl)
  | .ok _, .error _ => .isFalse (by intro hh; cases hh)
  | .error _, .ok _ => .isFalse (by intro hh; cases hh)

/-- Result of `io.ReadAll` on the response body together with the status
code: the observable face of an `*http.Response` at this layer. -/
structure Response where
  statusCode : Int
  bodyRead : Except String String
  deriving DecidableEq

/-- Outcome of one `HTTPClient.Do` exchange.  Per the spec's collaborator
interface, the transport yields either a response or a transport-level
error (in Go, a nil `*http.Response` alongside the error). -/
inductive TransportResult where
  | ok (resp : Response)
  | err (msg : String)

/-- The `Client` struct: optional basic-auth credentials, optional static
bearer token, optional dynamic token source (modelled by the result its
single `Token()` call would produce), and the HTTP transport oracle. -/
structure Client where
  username : Option String
  password : Option String
  oauthToken : Option String
  oauthTokenSource : Option (Except String Token)
  httpClient : Request → TransportResult

/-- The distinguishable error kinds `Do` can return, which in Go are
distinct dynamic types behind the `error` interface. -/
inductive DoError where
  | requestError (msg : String)
  | tokenError (msg : String)
  | readError (msg : String)
  | apiError (e : Error)
  deriving DecidableEq

/-- What `Do` does from the caller's point of view: a normal return of
`(resp, err)` (either may be nil), or a runtime panic — which the Go
code reaches by dereferencing the nil response after a transport error. -/
inductive DoResult where
  | ret (resp : Option Response) (err : Option DoError)
  | nilPanic
  deriving DecidableEq

/-- Instrumented outcome of a `Do` call: the caller-visible result, the
request handed to the transport (`none` when the transport was never
invoked), and the client configuration as it stands after the call. -/
structure DoOutput where
  result : DoResult
  sent : Option Request
  client : Client

/-- Number of transport invocations a `Do` call performed. -/
def DoOutput.transportCalls (o : DoOutput) : Nat :=
  match o.sent with
  | some _ => 1
  | none => 0

/-- The fixed base URL `BitbucketEndpoint`. -/
def BitbucketEndpoint : String := "https://api.bitbucket.org/"

/-- Trailing statements of the request-building phase of `Do`: attach
`Content-Type: application/json` when a payload is present and the flag
is set, then mark `req.Close = true`. -/
def finishRequest (req : Request) (payload : Option String) (addJsonHeader : Bool) : Request :=
  let req4 :=
    if payload.isSome && addJsonHeader then
      { req with header := headerAdd req.header "Content-Type" "application/json" }
    else req
  { req4 with close := true }

/-- The request-building phase of `Do` (everything before
`c.HTTPClient.Do(req)`): URL concatenation, `http.NewRequest`, the three
authentication steps in source order (basic auth via `Set`, static
bearer token via `Add`, token source via `SetAuthHeader`), then the JSON
header and the `Close` flag. -/
def Client.buildRequest (c : Client) (method endpoint : String)
    (payload : Option String) (addJsonHeader : Bool) : Except DoError Request :=
  let absoluteendpoint := BitbucketEndpoint ++ endpoint
  match newRequest method absoluteendpoint payload with
  | .error e => .error (.requestError e)
  | .ok req0 =>
    let req1 :=
      match c.username, c.password with
      | some u, some p => setBasicAuth req0 u p
      | _, _ => req0
    let req2 :=
      match c.oauthToken with
      | some tok => { req1 with header := headerAdd req1.header "Authorization" ("Bearer " ++ tok) }
      | none => req1
    let req3E : Except DoError Request :=
      match c.oauthTokenSource with
      | none => .ok req2
      | some (.error e) => .error (.tokenError e)
      | some (.ok token) => .ok (token.setAuthHeader req2)
    match req3E with
    | .error e => .error e
    | .ok req3 => .ok (finishRequest req3 payload addJsonHeader)

/-- The `Error` value the failure branch starts from:
`Error{StatusCode: resp.StatusCode, Endpoint: endpoint}` (other fields
at their zero values). -/
def initialAPIError (code : Int) (endpoint : String) : Error :=
  { apiError := { message := "" }, type := "", statusCode := code, endpoint := endpoint }

/-- The response-inspection phase of `Do`: outside `[200, 399]` the body
is drained (a read failure is returned with a nil response), unmarshalled
into the `Error` struct pre-filled with status code and endpoint, with
the raw body substituted as the message when unmarshalling errors; the
response is returned together with the API error.  Inside the range the
response is returned with the (nil) transport error. -/
def respond (endpoint : String) (resp : Response) : Option Response × Option DoError :=
  if resp.statusCode ≥ 400 ∨ resp.statusCode < 200 then
    let apiError0 : Error := initialAPIError resp.statusCode endpoint
    match resp.bodyRead with
    | .error e => (none, some (.readError e))
    | .ok body =>
      let u := unmarshalError apiError0 body
      let apiErr := if u.2 then { u.1 with apiError := { message := body } } else u.1
      (some resp, some (.apiError apiErr))
  else (some resp, none)

/-- The dispatcher `Client.Do`: build the request, send it through the
transport, inspect the result.  When the transport itself errors, the Go
code immediately evaluates `resp.StatusCode` on the nil response, which
panics — modelled by the `nilPanic` outcome. -/
def Client.Do (c : Client) (method endpoint : String)
    (payload : Option String) (addJsonHeader : Bool) : DoOutput :=
  match c.buildRequest method endpoint payload addJsonHeader with
  | .error e => { result := .ret none (some e), sent := none, client := c }
  | .ok req =>
    match c.httpClient req with
    | .err _ => { result := .nilPanic, sent := some req, client := c }
    | .ok resp =>
      let p := respond endpoint resp
      { result := .ret p.1 p.2, sent := some req, client := c }

/-! ## Convenience operations -/

/-- `Get`: GET with no payload, JSON-header flag set. -/
def Client.Get (c : Client) (endpoint : String) : DoOutput :=
  c.Do "GET" endpoint none true

/-- `Post`: POST with payload and the JSON header flag. -/
def Client.Post (c : Client) (endpoint : String) (jsonpayload : Option String) : DoOutput :=
  c.Do "POST" endpoint jsonpayload true

/-- `PostNonJson`: POST with payload, without the JSON header flag. -/
def Client.PostNonJson (c : Client) (endpoint : String) (jsonpayload : Option String) : DoOutput :=
  c.Do "POST" endpoint jsonpayload false

/-- `Put`: PUT with payload and the JSON header flag. -/
def Client.Put (c : Client) (endpoint : String) (jsonpayload : Option String) : DoOutput :=
  c.Do "PUT" endpoint jsonpayload true

/-- `PutOnly`: PUT with a nil body. -/
def Client.PutOnly (c : Client) (endpoint : String) : DoOutput :=
  c.Do "PUT" endpoint none true

/-- `Delete`: DELETE with a nil body. -/
def Client.Delete (c : Client) (endpoint : String) : DoOutput :=
  c.Do "DELETE" endpoint none true

/-! ## Observers used by the claims -/

/-- Whether a failure body can overwrite the pre-filled `StatusCode` or
`Endpoint` fields during unmarshalling: it parses as a JSON object with
a member whose key matches one of those field names. -/
def bodyOverridesMeta (body : String) : Bool :=
  match parseJson body with
  | some (.obj fs) => fs.any (fun kv => eqFold kv.1 "StatusCode" || eqFold kv.1 "Endpoint")
  | _ => false

/-- The request handed to the transport carried no body (vacuously true
when the transport was never reached). -/
def sentBodyNone (o : DoOutput) : Bool :=
  match o.sent with
  | some r => r.body.isNone
  | none => true

/-- The request handed to the transport carried no `Content-Type` header. -/
def sentNoContentType (o : DoOutput) : Bool :=
  match o.sent with
  | some r => headerValues r.header "Content-Type" == []
  | none => true

/-- The request handed to the transport carried exactly
`Content-Type: application/json`. -/
def sentJsonContentType (o : DoOutput) : Bool :=
  match o.sent with
  | some r => headerValues r.header "Content-Type" == ["application/json"]
  | none => true

/-! ## Header lemmas -/

theorem headerValues_set_self (h : Header) (k v : String) :
    headerValues (headerSet h k v) k = [v] := by
  unfold headerValues headerSet
  induction h with
  | nil => simp
  | cons a t ih =>
    by_cases hk : a.1 == k
    · simpa [List.filter_cons, hk] using ih
    · simpa [List.filter_cons, hk] using ih

theorem headerValues_set_other (h : Header) (k k2 v : String) (hne : k ≠ k2) :
    headerValues (headerSet h k v) k2 = headerValues h k2 := by
  unfold headerValues headerSet
  have hkk2 : (k == k2) = false := by simpa using hne
  induction h with
  | nil => simp [hkk2]
  | cons a t ih =>
    by_cases hk : a.1 == k
    · have ha1 : a.1 = k := by simpa using hk
      have ha2 : (a.1 == k2) = false := by simpa [ha1] using hne
      simpa [List.filter_cons, hk, List.find?_cons, ha2] using ih
    · by_cases h2 : a.1 == k2
      · simp [List.filter_cons, hk, List.find?_cons, h2]
      · simpa [List.filter_cons, hk, List.find?_cons, h2] using ih

theorem find?_map_addValue (t : List (String × List String)) (k v : String) :
    (t.map (fun kv => if kv.1 == k then (kv.1, kv.2 ++ [v]) else kv)).find?
        (fun kv => kv.1 == k)
      = (t.find? (fun kv => kv.1 == k)).map (fun kv => (kv.1, kv.2 ++ [v])) := by
  induction t with
  | nil => rfl
  | cons a t ih =>
    obtain ⟨a1, a2⟩ := a
    by_cases hk : a1 = k
    · subst hk
      simp [List.find?_cons, -List.find?_map]
    · simp [List.find?_cons, hk, -List.find?_map]
      simpa using ih

theorem find?_map_addValue_ne (t : List (String × List String)) (k k2 v : String)
    (hne : k ≠ k2) :
    (t.map (fun kv => if kv.1 == k then (kv.1, kv.2 ++ [v]) else kv)).find?
        (fun kv => kv.1 == k2)
      = t.find? (fun kv => kv.1 == k2) := by
  induction t with
  | nil => rfl
  | cons a t ih =>
    obtain ⟨a1, a2⟩ := a
    by_cases hk : a1 = k
    · subst hk
      simp [List.find?_cons, hne, -List.find?_map]
      simpa using ih
    · by_cases h2 : a1 = k2
      · subst h2
        simp [List.find?_cons, hk, -List.find?_map]
      · simp [List.find?_cons, hk, h2, -List.find?_map]
        simpa using ih

theorem headerValues_add_self (h : Header) (k v : String) :
    headerValues (headerAdd h k v) k = headerValues h k ++ [v] := by
  unfold headerValues headerAdd
  by_cases hany : h.any (fun kv => kv.1 == k)
  · rw [if_pos hany, find?_map_addValue]
    cases hf : h.find? (fun kv => kv.1 == k) with
    | none =>
      obtain ⟨a, ha, hpa⟩ := List.any_eq_true.mp hany
      have := List.find?_eq_none.mp hf a ha
      simp [hpa] at this
    | some kv => simp
  · rw [if_neg hany]
    have hf : h.find? (fun kv => kv.1 == k) = none := by
      rw [List.find?_eq_none]
      intro x hx
      have := (List.any_eq_false.mp (Bool.eq_false_iff.mpr hany)) x hx
      simpa using this
    induction h with
    | nil => simp
    | cons a t ih =>
      have ha : (a.1 == k) = false := by
        have := (List.any_eq_false.mp (Bool.eq_false_iff.mpr hany)) a (by simp)
        simpa using this
      have hany' : ¬ t.any (fun kv => kv.1 == k) = true := by
        intro hcon
        exact hany (by simp [List.any_cons, hcon])
      have hf' : t.find? (fun kv => kv.1 == k) = none := by
        rw [List.find?_eq_none]
        intro x hx
        exact List.find?_eq_none.mp hf x (by simp [hx])
      simpa [List.find?_cons, ha] using ih hany' hf'

theorem decodeAPIErrorField_meta (acc : Error × Bool) (kv : String × Json) :
    (decodeAPIErrorField acc kv).1.statusCode = acc.1.statusCode ∧
    (decodeAPIErrorField acc kv).1.endpoint = acc.1.endpoint := by
  unfold decodeAPIErrorField
  split
  · split <;> exact ⟨rfl, rfl⟩
  · exact ⟨rfl, rfl⟩

theorem decodeAPIErrorFold_meta (gs : List (String × Json)) (acc : Error × Bool) :
    (gs.foldl decodeAPIErrorField acc).1.statusCode = acc.1.statusCode ∧
    (gs.foldl decodeAPIErrorField acc).1.endpoint = acc.1.endpoint := by
  induction gs generalizing acc with
  | nil => exact ⟨rfl, rfl⟩
  | cons g gs ih =>
    simp only [List.foldl_cons]
    obtain ⟨h1, h2⟩ := decodeAPIErrorField_meta acc g
    obtain ⟨h3, h4⟩ := ih (decodeAPIErrorField acc g)
    exact ⟨h3.trans h1, h4.trans h2⟩

theorem decodeErrorField_meta (acc : Error × Bool) (kv : String × Json)
    (h1 : eqFold kv.1 "StatusCode" = false) (h2 : eqFold kv.1 "Endpoint" = false) :
    (decodeErrorField acc kv).1.statusCode = acc.1.statusCode ∧
    (decodeErrorField acc kv).1.endpoint = acc.1.endpoint := by
  unfold decodeErrorField
  simp only [h1, h2, Bool.false_eq_true, if_false]
  split
  · split
    · exact ⟨rfl, rfl⟩
    · exact decodeAPIErrorFold_meta _ acc
    · exact ⟨rfl, rfl⟩
  · split
    · split <;> exact ⟨rfl, rfl⟩
    · exact ⟨rfl, rfl⟩

theorem decodeErrorFold_meta (fs : List (String × Json)) (acc : Error × Bool)
    (h : ∀ kv ∈ fs, eqFold kv.1 "StatusCode" = false ∧ eqFold kv.1 "Endpoint" = false) :
    (fs.foldl decodeErrorField acc).1.statusCode = acc.1.statusCode ∧
    (fs.foldl decodeErrorField acc).1.endpoint = acc.1.endpoint := by
  induction fs generalizing acc with
  | nil => exact ⟨rfl, rfl⟩
  | cons g gs ih =>
    simp only [List.foldl_cons]
    obtain ⟨hs, he⟩ := h g (by simp)
    obtain ⟨ha, hb⟩ := decodeErrorField_meta acc g hs he
    obtain ⟨h3, h4⟩ := ih (decodeErrorField acc g) (fun kv hkv => h kv (by simp [hkv]))
    exact ⟨h3.trans ha, h4.trans hb⟩

theorem unmarshal_meta (init : Error) (body : String)
    (hover : bodyOverridesMeta body = false) :
    (unmarshalError init body).1.statusCode = init.statusCode ∧
    (unmarshalError init body).1.endpoint = init.endpoint := by
  unfold unmarshalError
  unfold bodyOverridesMeta at hover
  cases hp : parseJson body with
  | none => simp [hp]
  | some j =>
    simp only [hp]
    rw [hp] at hover
    cases j with
    | null => exact ⟨rfl, rfl⟩
    | boolean b => exact ⟨rfl, rfl⟩
    | num l => exact ⟨rfl, rfl⟩
    | str s => exact ⟨rfl, rfl⟩
    | arr xs => exact ⟨rfl, rfl⟩
    | obj fs =>
      have hall : ∀ a b, (a, b) ∈ fs →
          eqFold a "StatusCode" = false ∧ eqFold a "Endpoint" = false := by
        simpa using hover
      exact decodeErrorFold_meta fs (init, false) (fun kv hkv => hall kv.1 kv.2 hkv)

theorem headerValues_add_other (h : Header) (k k2 v : String) (hne : k ≠ k2) :
    headerValues (headerAdd h k v) k2 = headerValues h k2 := by
  unfold headerValues headerAdd
  by_cases hany : h.any (fun kv => kv.1 == k)
  · rw [if_pos hany, find?_map_addValue_ne h k k2 v hne]
  · rw [if_neg hany]
    have hkk2 : (k == k2) = false := by simpa using hne
    induction h with
    | nil => simp [hkk2]
    | cons a t ih =>
      have hany' : ¬ t.any (fun kv => kv.1 == k) = true := by
        intro hcon
        exact hany (by simp [List.any_cons, hcon])
      by_cases h2 : a.1 == k2
      · simp [List.find?_cons, h2]
      · simpa [List.find?_cons, h2] using ih hany'

theorem headerValues_nil (k : String) : headerValues [] k = [] := rfl

theorem finishRequest_body (r : Request) (pl : Option String) (flag : Bool) :
    (finishRequest r pl flag).body = r.body := by
  unfold finishRequest
  split <;> rfl

theorem finishRequest_contentType (r : Request) (pl : Option String) (flag : Bool)
    (h : headerValues r.header "Content-Type" = []) :
    headerValues (finishRequest r pl flag).header "Content-Type"
      = (if pl.isSome && flag then ["application/json"] else []) := by
  unfold finishRequest
  by_cases hc : (pl.isSome && flag) = true
  · simp only [if_pos hc]
    rw [headerValues_add_self, h]
    rfl
  · simp only [if_neg hc]
    exact h

theorem buildRequest_shape (c : Client) (method endpoint : String)
    (payload : Option String) (flag : Bool) (req : Request)
    (h : c.buildRequest method endpoint payload flag = .ok req) :
    req.body = payload ∧
    headerValues req.header "Content-Type"
      = (if payload.isSome && flag then ["application/json"] else []) := by
  obtain ⟨cu, cp, ctk, csrc, tr⟩ := c
  unfold Client.buildRequest newRequest at h
  by_cases hv : (!validMethod method) = true
  · simp [hv] at h
  · have hv' : (!validMethod method) = false := by simpa using hv
    by_cases hc : hasCtlByte (BitbucketEndpoint ++ endpoint) = true
    · simp [hv', hc] at h
    · have hc' : hasCtlByte (BitbucketEndpoint ++ endpoint) = false := by simpa using hc
      simp only [hv', hc', Bool.false_eq_true, if_false] at h
      rcases cu with _ | u <;> rcases cp with _ | p <;> rcases ctk with _ | tok <;>
          rcases csrc with _ | (e | t) <;>
        simp only [Except.ok.injEq] at h <;>
        first
          | exact Except.noConfusion h
          | (subst h
             constructor
             · simp [finishRequest_body, setBasicAuth, Token.setAuthHeader]
             · rw [finishRequest_contentType _ _ _ (by
                 simp +decide [setBasicAuth, Token.setAuthHeader,
                   headerValues_set_other, headerValues_add_other, headerValues_nil])])

theorem finishRequest_auth (r : Request) (pl : Option String) (flag : Bool) :
    headerValues (finishRequest r pl flag).header "Authorization"
      = headerValues r.header "Authorization" := by
  unfold finishRequest
  split
  · exact headerValues_add_other _ _ _ _ (by decide)
  · rfl

/-! ## Concrete clients and transports used in closed statements -/

/-- A client with no authentication configured, dispatching through the
given transport. -/
def plainClient (t : Request → TransportResult) : Client :=
  { username := none, password := none, oauthToken := none,
    oauthTokenSource := none, httpClient := t }

/-- A transport that answers every request with the same response. -/
def constTransport (r : Response) : Request → TransportResult :=
  fun _ => .ok r

/-- A transport that fails every exchange with a connection error; in Go
the accompanying `*http.Response` is nil. -/
def failingTransport : Request → TransportResult :=
  fun _ => .err "dial tcp: connection refused"

/-- The `Authorization` values on the request handed to the transport
(empty when the transport was never reached). -/
def sentAuthValues (o : DoOutput) : List String :=
  match o.sent with
  | some r => headerValues r.header "Authorization"
  | none => []

/-- The message-selection rule exactly as claim C4 words it — a
definition written from the spec's words, kept separate so it can be
compared against the code's behaviour: the nested `error.message` field
when the body parses as JSON, the raw body text otherwise. -/
def claimC4Message (body : String) : String :=
  match parseJson body with
  | some j =>
    (match j with
     | .obj fs =>
       (match fs.find? (fun kv => eqFold kv.1 "error") with
        | some kv =>
          (match kv.2 with
           | .obj gs =>
             (match gs.find? (fun g => eqFold g.1 "message") with
              | some g => (match g.2 with | .str s => s | _ => "")
              | none => "")
           | _ => "")
        | none => "")
     | _ => "")
  | none => body

/-! ## Claims -/

/-- Claim C1, counterexample: a response with status code 300 — outside
`[200, 299]` — comes back from `Do` with a nil error and no API error at
all, because the code's failure test is `StatusCode >= 400 ||
StatusCode < 200`, making `[200, 399]` the success range. -/
theorem c1_counterexample :
    ((plainClient (constTransport { statusCode := 300, bodyRead := .ok "redirect" })).Do
        "GET" "p" none true).result
      = .ret (some { statusCode := 300, bodyRead := .ok "redirect" }) none
    ∧ ¬ (200 ≤ (300 : Int) ∧ (300 : Int) ≤ 299) :=
  ⟨rfl, by decide⟩

/-- Claim C1 (amended): for every response whose status code lies outside
the code's success range `[200, 399]` and whose body is readable, `Do`
returns the original response together with a non-nil API error; the
error's status code equals the response's status code and its endpoint
equals the requested path, provided the body does not itself contain
`StatusCode`/`Endpoint` JSON members (which unmarshalling would let
overwrite the pre-filled fields). -/
theorem c1_failure_range_error (c : Client) (method endpoint : String)
    (payload : Option String) (flag : Bool) (req : Request) (resp : Response) (body : String)
    (hreq : c.buildRequest method endpoint payload flag = .ok req)
    (htr : c.httpClient req = .ok resp)
    (hrange : resp.statusCode < 200 ∨ resp.statusCode ≥ 400)
    (hbody : resp.bodyRead = .ok body)
    (hover : bodyOverridesMeta body = false) :
    ∃ e : Error, (c.Do method endpoint payload flag).result
        = .ret (some resp) (some (.apiError e))
      ∧ e.statusCode = resp.statusCode ∧ e.endpoint = endpoint := by
  have hmeta := unmarshal_meta (initialAPIError resp.statusCode endpoint) body hover
  unfold Client.Do
  simp only [hreq, htr]
  unfold respond
  rw [if_pos (hrange.elim Or.inr Or.inl)]
  simp only [hbody]
  refine ⟨_, rfl, ?_, ?_⟩
  · cases hb2 : (unmarshalError (initialAPIError resp.statusCode endpoint) body).2 <;>
      simpa [hb2, initialAPIError] using hmeta.1
  · cases hb2 : (unmarshalError (initialAPIError resp.statusCode endpoint) body).2 <;>
      simpa [hb2, initialAPIError] using hmeta.2

/-- Witness for the amended C1 at a concrete dispatch. -/
theorem c1_failure_range_error_witness :
    ∃ e : Error,
      ((plainClient (constTransport { statusCode := 404, bodyRead := .ok "oops" })).Do
          "GET" "x" none true).result
        = .ret (some { statusCode := 404, bodyRead := .ok "oops" }) (some (.apiError e))
      ∧ e.statusCode = 404 ∧ e.endpoint = "x" :=
  c1_failure_range_error _ "GET" "x" none true _ _ "oops" rfl rfl
    (Or.inr (by decide)) rfl rfl

/-- Claim C2 (the code, at the claim's failing input): when the transport
itself fails — in Go it then returns a nil `*http.Response` — `Do` reads
`resp.StatusCode` without checking the transport error first, so the
call panics on the nil dereference instead of propagating the transport
error to the caller. -/
theorem c2_transport_error_panics :
    ((plainClient failingTransport).Do "GET" "p" none true).result = .nilPanic := rfl

/-- Claim C3, counterexample: with basic auth and a static bearer token
both configured (and no token source), the static token is added as a
second `Authorization` value (`Header.Add` appends, it does not
overwrite), so the outbound request carries two `Authorization` values,
not exactly one. -/
theorem c3_counterexample :
    sentAuthValues ((Client.mk (some "u") (some "p") (some "tok") none
        (constTransport { statusCode := 200, bodyRead := .ok "" })).Do "GET" "p" none true)
      = ["Basic dTpw", "Bearer tok"]
    ∧ (["Basic dTpw", "Bearer tok"] : List String).length ≠ 1 :=
  ⟨rfl, by decide⟩

/-- Claim C3 (amended): the three mechanisms fire in the fixed order
basic auth, static bearer token, dynamic token source — but basic auth
and the token source write the `Authorization` header with set-semantics
while the static token is appended with add-semantics.  Hence when a
dynamic token source is configured it replaces everything and exactly
one `Authorization` value remains; with basic auth plus a static token
and no token source, two `Authorization` values are sent (basic first,
bearer second). -/
theorem c3_auth_header_order (u p tok : String) (t : Token)
    (tr tr2 : Request → TransportResult) (method endpoint : String)
    (payload : Option String) (flag : Bool) (req req2 : Request)
    (h1 : (Client.mk (some u) (some p) (some tok) (some (.ok t)) tr).buildRequest
        method endpoint payload flag = .ok req)
    (h2 : (Client.mk (some u) (some p) (some tok) none tr2).buildRequest
        method endpoint payload flag = .ok req2) :
    headerValues req.header "Authorization" = [t.typeName ++ " " ++ t.accessToken]
    ∧ headerValues req2.header "Authorization"
        = ["Basic " ++ base64Encode (u ++ ":" ++ p), "Bearer " ++ tok] := by
  unfold Client.buildRequest newRequest at h1 h2
  by_cases hv : (!validMethod method) = true
  · simp [hv] at h1
  · have hv' : (!validMethod method) = false := by simpa using hv
    by_cases hcb : hasCtlByte (BitbucketEndpoint ++ endpoint) = true
    · simp [hv', hcb] at h1
    · have hc' : hasCtlByte (BitbucketEndpoint ++ endpoint) = false := by simpa using hcb
      simp only [hv', hc', Bool.false_eq_true, if_false, Except.ok.injEq] at h1 h2
      subst h1
      subst h2
      constructor
      · rw [finishRequest_auth]
        simp [Token.setAuthHeader, headerValues_set_self]
      · rw [finishRequest_auth]
        simp [setBasicAuth, headerValues_add_self, headerValues_set_self]

/-- Witness for the amended C3 at concrete credentials. -/
theorem c3_auth_header_order_witness :
    ∃ req req2 : Request,
      (Client.mk (some "u") (some "p") (some "tok")
          (some (.ok { accessToken := "abc", tokenType := "" }))
          (constTransport { statusCode := 200, bodyRead := .ok "" })).buildRequest
          "GET" "q" none true = .ok req
      ∧ (Client.mk (some "u") (some "p") (some "tok") none
          (constTransport { statusCode := 200, bodyRead := .ok "" })).buildRequest
          "GET" "q" none true = .ok req2
      ∧ headerValues req.header "Authorization" = ["Bearer abc"]
      ∧ headerValues req2.header "Authorization" = ["Basic dTpw", "Bearer tok"] := by
  refine ⟨_, _, rfl, rfl, ?_, ?_⟩
  · exact (c3_auth_header_order "u" "p" "tok" { accessToken := "abc", tokenType := "" }
      (constTransport { statusCode := 200, bodyRead := .ok "" })
      (constTransport { statusCode := 200, bodyRead := .ok "" })
      "GET" "q" none true _ _ rfl rfl).1
  · exact (c3_auth_header_order "u" "p" "tok" { accessToken := "abc", tokenType := "" }
      (constTransport { statusCode := 200, bodyRead := .ok "" })
      (constTransport { statusCode := 200, bodyRead := .ok "" })
      "GET" "q" none true _ _ rfl rfl).2

/-- The body used in the C4 counterexample: the four characters
`"hi"` including the quotes — valid JSON (a JSON string), but not the
expected object shape. -/
def c4Body : String := "\"hi\""

/-- The response carrying `c4Body` with status 404. -/
def c4Resp : Response := { statusCode := 404, bodyRead := .ok c4Body }

/-- The API error the code produces for `c4Resp` on path `p`. -/
def c4Err : Error :=
  { apiError := { message := c4Body }, type := "", statusCode := 404, endpoint := "p" }

/-- Claim C4, counterexample: the body does parse as JSON (a JSON
string), yet the resulting error's message is the raw body text — not
the (absent) nested `error.message` field, which the claim's rule
(`claimC4Message`) would make the empty string.  The code's real
discriminator is whether the body unmarshals into the error struct, not
whether it parses as JSON. -/
theorem c4_counterexample :
    parseJson c4Body = some (.str "hi")
    ∧ ((plainClient (constTransport c4Resp)).Do "GET" "p" none true).result
      = .ret (some c4Resp) (some (.apiError c4Err))
    ∧ claimC4Message c4Body = "" ∧ c4Body ≠ "" :=
  ⟨rfl, rfl, rfl, by decide⟩

/-- Claim C4 (amended): for every failed response with readable body, the
error's message is the decoded nested `error.message` field (empty when
absent) when the body unmarshals into the error structure without error —
a JSON object of the expected shape, or JSON null; when unmarshalling
fails — invalid JSON, or a JSON value of any other shape — the message
is the raw body text verbatim. -/
theorem c4_error_message_rule (c : Client) (method endpoint : String)
    (payload : Option String) (flag : Bool) (req : Request) (resp : Response) (body : String)
    (hreq : c.buildRequest method endpoint payload flag = .ok req)
    (htr : c.httpClient req = .ok resp)
    (hrange : resp.statusCode < 200 ∨ resp.statusCode ≥ 400)
    (hbody : resp.bodyRead = .ok body) :
    ∃ e : Error, (c.Do method endpoint payload flag).result
        = .ret (some resp) (some (.apiError e))
      ∧ e.apiError.message
          = (if (unmarshalError (initialAPIError resp.statusCode endpoint) body).2 then body
             else (unmarshalError (initialAPIError resp.statusCode endpoint) body).1.apiError.message) := by
  unfold Client.Do
  simp only [hreq, htr]
  unfold respond
  rw [if_pos (hrange.elim Or.inr Or.inl)]
  simp only [hbody]
  refine ⟨_, rfl, ?_⟩
  cases hb2 : (unmarshalError (initialAPIError resp.statusCode endpoint) body).2 <;>
    simp [hb2, initialAPIError]

/-- A 410 response whose body nests the message `gone`. -/
def c4wResp : Response :=
  { statusCode := 410, bodyRead := .ok "\x7b\"error\":\x7b\"message\":\"gone\"\x7d\x7d" }

/-- Witness for the amended C4 at a concrete dispatch whose body
unmarshals cleanly. -/
theorem c4_error_message_rule_witness :
    ∃ e : Error,
      ((plainClient (constTransport c4wResp)).Do "GET" "y" none true).result
        = .ret (some c4wResp) (some (.apiError e))
      ∧ e.apiError.message = "gone" :=
  c4_error_message_rule _ "GET" "y" none true _ _
    "\x7b\"error\":\x7b\"message\":\"gone\"\x7d\x7d" rfl rfl (Or.inr (by decide)) rfl

/-- Claim C5: with a failing token source configured (and a request that
constructs), `Do` returns the credential error and the transport
observes zero invocations. -/
theorem c5_token_source_failure (c : Client) (method endpoint : String)
    (payload : Option String) (flag : Bool) (msg : String)
    (hsrc : c.oauthTokenSource = some (.error msg))
    (hm : validMethod method = true)
    (hurl : hasCtlByte (BitbucketEndpoint ++ endpoint) = false) :
    (c.Do method endpoint payload flag).result = .ret none (some (.tokenError msg))
    ∧ (c.Do method endpoint payload flag).transportCalls = 0 := by
  have hbr : c.buildRequest method endpoint payload flag = .error (.tokenError msg) := by
    unfold Client.buildRequest newRequest
    simp [hm, hurl, hsrc]
  constructor
  · unfold Client.Do
    simp [hbr]
  · unfold Client.Do
    simp [hbr, DoOutput.transportCalls]

/-- Witness for C5 at a concrete failing token source. -/
theorem c5_token_source_failure_witness :
    ((Client.mk none none none (some (.error "boom"))
        (constTransport { statusCode := 200, bodyRead := .ok "" })).Do
        "GET" "p" none true).result = .ret none (some (.tokenError "boom"))
    ∧ ((Client.mk none none none (some (.error "boom"))
        (constTransport { statusCode := 200, bodyRead := .ok "" })).Do
        "GET" "p" none true).transportCalls = 0 :=
  c5_token_source_failure _ "GET" "p" none true "boom" rfl rfl rfl

/-- Claim C6: every response whose status code lies in `[200, 299]` is
returned as-is with a nil error, regardless of the body. -/
theorem c6_success_range (c : Client) (method endpoint : String)
    (payload : Option String) (flag : Bool) (req : Request) (resp : Response)
    (hreq : c.buildRequest method endpoint payload flag = .ok req)
    (htr : c.httpClient req = .ok resp)
    (hlo : 200 ≤ resp.statusCode) (hhi : resp.statusCode ≤ 299) :
    (c.Do method endpoint payload flag).result = .ret (some resp) none := by
  unfold Client.Do
  simp only [hreq, htr]
  unfold respond
  rw [if_neg (by omega)]

/-- Witness for C6 at a concrete 204 dispatch. -/
theorem c6_success_range_witness :
    ((plainClient (constTransport { statusCode := 204, bodyRead := .ok "irrelevant" })).Do
        "DELETE" "z" none true).result
      = .ret (some { statusCode := 204, bodyRead := .ok "irrelevant" }) none :=
  c6_success_range _ "DELETE" "z" none true _ _ rfl rfl (by decide) (by decide)

/-- The body used in the C7 concrete case:
`(open brace)"error":(open brace)"message":"nope"(close braces)`. -/
def c7Body : String := "\x7b\"error\":\x7b\"message\":\"nope\"\x7d\x7d"

/-- The 404 response carrying `c7Body`. -/
def c7Resp : Response := { statusCode := 404, bodyRead := .ok c7Body }

/-- The API error the code produces for `c7Resp` on path `p`. -/
def c7Err : Error :=
  { apiError := { message := "nope" }, type := "", statusCode := 404, endpoint := "p" }

/-- Claim C7: the API error formats as
`API Error: (statusCode) (endpoint) (message)`; concretely, a 404 on
path `p` whose body nests the message `nope` yields an error whose
message is exactly `nope` and whose formatted string is exactly
`API Error: 404 p nope`. -/
theorem c7_error_format :
    (∀ e : Error, e.errorString
        = "API Error: " ++ toString e.statusCode ++ " " ++ e.endpoint ++ " "
            ++ e.apiError.message)
    ∧ ((plainClient (constTransport c7Resp)).Do "GET" "p" none true).result
      = .ret (some c7Resp) (some (.apiError c7Err))
    ∧ c7Err.errorString = "API Error: 404 p nope" :=
  ⟨fun _ => rfl, rfl, rfl⟩

theorem sentBodyNone_of_nil_payload (c : Client) (m ep : String) (f : Bool) :
    sentBodyNone (c.Do m ep none f) = true := by
  cases hb : c.buildRequest m ep none f with
  | error e => simp [Client.Do, hb, sentBodyNone]
  | ok req =>
    have hsh := (buildRequest_shape c m ep none f req hb).1
    cases htr : c.httpClient req with
    | err msg => simp [Client.Do, hb, htr, sentBodyNone, hsh]
    | ok resp => simp [Client.Do, hb, htr, sentBodyNone, hsh]

theorem sentNoCT_of_noJson (c : Client) (m ep : String) (pl : Option String) :
    sentNoContentType (c.Do m ep pl false) = true := by
  cases hb : c.buildRequest m ep pl false with
  | error e => simp [Client.Do, hb, sentNoContentType]
  | ok req =>
    have hct : headerValues req.header "Content-Type" = [] := by
      simpa using (buildRequest_shape c m ep pl false req hb).2
    cases htr : c.httpClient req with
    | err msg => simp [Client.Do, hb, htr, sentNoContentType, hct]
    | ok resp => simp [Client.Do, hb, htr, sentNoContentType, hct]

theorem sentJsonCT_of_payload (c : Client) (m ep pl : String) :
    sentJsonContentType (c.Do m ep (some pl) true) = true := by
  cases hb : c.buildRequest m ep (some pl) true with
  | error e => simp [Client.Do, hb, sentJsonContentType]
  | ok req =>
    have hct : headerValues req.header "Content-Type" = ["application/json"] := by
      simpa using (buildRequest_shape c m ep (some pl) true req hb).2
    cases htr : c.httpClient req with
    | err msg => simp [Client.Do, hb, htr, sentJsonContentType, hct]
    | ok resp => simp [Client.Do, hb, htr, sentJsonContentType, hct]

/-- Claim C8: every convenience operation is a fixed-argument call to
`Do`; `Get`, `PutOnly` and `Delete` never attach a request body;
`PostNonJson` never sets a content-type header even when a body is
present; `Post` and `Put` set the JSON content-type header whenever a
body is present. -/
theorem c8_helpers :
    (∀ (c : Client) (ep : String), c.Get ep = c.Do "GET" ep none true)
    ∧ (∀ (c : Client) (ep : String) (pl : Option String),
        c.Post ep pl = c.Do "POST" ep pl true)
    ∧ (∀ (c : Client) (ep : String) (pl : Option String),
        c.PostNonJson ep pl = c.Do "POST" ep pl false)
    ∧ (∀ (c : Client) (ep : String) (pl : Option String),
        c.Put ep pl = c.Do "PUT" ep pl true)
    ∧ (∀ (c : Client) (ep : String), c.PutOnly ep = c.Do "PUT" ep none true)
    ∧ (∀ (c : Client) (ep : String), c.Delete ep = c.Do "DELETE" ep none true)
    ∧ (∀ (c : Client) (ep : String), sentBodyNone (c.Get ep) = true)
    ∧ (∀ (c : Client) (ep : String), sentBodyNone (c.PutOnly ep) = true)
    ∧ (∀ (c : Client) (ep : String), sentBodyNone (c.Delete ep) = true)
    ∧ (∀ (c : Client) (ep : String) (pl : Option String),
        sentNoContentType (c.PostNonJson ep pl) = true)
    ∧ (∀ (c : Client) (ep pl : String), sentJsonContentType (c.Post ep (some pl)) = true)
    ∧ (∀ (c : Client) (ep pl : String), sentJsonContentType (c.Put ep (some pl)) = true) :=
  ⟨fun _ _ => rfl, fun _ _ _ => rfl, fun _ _ _ => rfl, fun _ _ _ => rfl,
    fun _ _ => rfl, fun _ _ => rfl,
    fun c ep => sentBodyNone_of_nil_payload c "GET" ep true,
    fun c ep => sentBodyNone_of_nil_payload c "PUT" ep true,
    fun c ep => sentBodyNone_of_nil_payload c "DELETE" ep true,
    fun c ep pl => sentNoCT_of_noJson c "POST" ep pl,
    fun c ep pl => sentJsonCT_of_payload c "POST" ep pl,
    fun c ep pl => sentJsonCT_of_payload c "PUT" ep pl⟩

/-- Claim C9: `Do` never mutates the client configuration — the whole
configuration record, hence in particular the username, password, static
token, token source and transport fields, is unchanged by any call. -/
theorem c9_client_unchanged (c : Client) (method endpoint : String)
    (payload : Option String) (flag : Bool) :
    (c.Do method endpoint payload flag).client = c := by
  unfold Client.Do
  cases hb : c.buildRequest method endpoint payload flag with
  | error e => rfl
  | ok req =>
    cases htr : c.httpClient req with
    | err m => simp [htr]
    | ok resp => simp [htr]

/-- Claim C10: when a failed response's body cannot be read, `Do` returns
a nil response together with the body-read error — unlike the normal
failure path, which hands the response back alongside the API error. -/
theorem c10_body_read_failure (c : Client) (method endpoint : String)
    (payload : Option String) (flag : Bool) (req : Request) (resp : Response) (msg : String)
    (hreq : c.buildRequest method endpoint payload flag = .ok req)
    (htr : c.httpClient req = .ok resp)
    (hrange : resp.statusCode < 200 ∨ resp.statusCode ≥ 400)
    (hread : resp.bodyRead = .error msg) :
    (c.Do method endpoint payload flag).result = .ret none (some (.readError msg)) := by
  unfold Client.Do
  simp only [hreq, htr]
  unfold respond
  rw [if_pos (hrange.elim Or.inr Or.inl)]
  simp only [hread]

/-- Witness for C10 at a concrete unreadable body. -/
theorem c10_body_read_failure_witness :
    ((plainClient (constTransport { statusCode := 500, bodyRead := .error "read failed" })).Do
        "GET" "p" none true).result = .ret none (some (.readError "read failed")) :=
  c10_body_read_failure _ "GET" "p" none true _ _ "read failed" rfl rfl
    (Or.inr (by decide)) rfl

end BitbucketClient
